import Mathlib

/-!
Verification development for the narrative-to-structured-record extraction
engine of the seo-agents application.  The two extraction functions
`formatTechnicalSeoResults` and `formatContentResults` from
`src/agents/technicalSeoAgent.ts` are shallowly embedded below: JavaScript
strings are `List Char`, the specific regular expressions used by the source
are implemented as explicit scanning functions with the same match semantics
(leftmost match, case-insensitive where the source uses the `i` flag,
greedy `\s*`, lazy `(.*?)` line captures that cannot cross a newline), and
JavaScript numbers are exact: integer-valued scores are `Int`, values that
can become `NaN` through `parseFloat` are `Option ℚ` with `none` playing the
role of `NaN` (all comparisons against `none` are false, and arithmetic
propagates `none`, as IEEE `NaN` does).
-/

namespace SeoAgents

abbrev Str := List Char

/-- ASCII lower-casing of a character, as `toLowerCase`/the `i` regex flag act on the ASCII range. -/
def lowerChar (c : Char) : Char :=
  if 'A' ≤ c ∧ c ≤ 'Z' then Char.ofNat (c.toNat + 32) else c

/-- ASCII upper-casing of a character, as `toUpperCase` acts on the ASCII range. -/
def upperChar (c : Char) : Char :=
  if 'a' ≤ c ∧ c ≤ 'z' then Char.ofNat (c.toNat - 32) else c

def lowerStr (s : Str) : Str := s.map lowerChar

/-- whitespace test used for `\s` and `trim` (ASCII whitespace). -/
def isWsChar (c : Char) : Bool :=
  c = ' ' || c = '\n' || c = '\t' || c = '\r' || c = '\x0b' || c = '\x0c'

def isDigitChar (c : Char) : Bool := '0' ≤ c && c ≤ '9'

/-- characters admitted by the `[\d.]` class. -/
def isNumChar (c : Char) : Bool := isDigitChar c || c = '.'

/-- case-sensitive literal-string match at the head: `p` is a leading segment of `t`;
returns the rest of `t` on success. -/
def eatLitCS : Str → Str → Option Str
  | [], t => some t
  | _ :: _, [] => none
  | p :: ps, c :: cs => if c = p then eatLitCS ps cs else none

/-- case-insensitive literal-string match at the head (the pattern `p` is given lower-case). -/
def eatLitCI : Str → Str → Option Str
  | [], t => some t
  | _ :: _, [] => none
  | p :: ps, c :: cs => if lowerChar c = p then eatLitCI ps cs else none

/-- `text.includes(pat)`: case-sensitive substring test. -/
def containsCS (t p : Str) : Bool :=
  match t with
  | [] => (eatLitCS p []).isSome
  | _ :: rest => (eatLitCS p t).isSome || containsCS rest p

/-- case-insensitive substring test (a `/i` regex made of one literal). -/
def containsCI (t p : Str) : Bool :=
  match t with
  | [] => (eatLitCI p []).isSome
  | _ :: rest => (eatLitCI p t).isSome || containsCI rest p

/-- `words.some (w => text contains w)`: a `/a|b|c/i` test of plain word alternatives. -/
def anyWordCI (t : Str) (words : List Str) : Bool := words.any (containsCI t)

def trimLeft (s : Str) : Str := s.dropWhile (fun c => isWsChar c)

/-- `String.prototype.trim`. -/
def trim (s : Str) : Str := (trimLeft ((trimLeft s).reverse)).reverse

/-- numeric value of a digit string, `parseInt` on a `(\d+)` capture. -/
def intOfDigits (s : Str) : ℤ :=
  (s.foldl (fun acc c => 10 * acc + (c.toNat - 48)) 0 : ℕ)

/-- `parseFloat` on a capture of the `[\d.]+` class: `none` models `NaN`
(e.g. on the capture consisting of a single dot). -/
def parseFloatDD (s : Str) : Option ℚ :=
  let ip := s.takeWhile isDigitChar
  let r1 := s.dropWhile isDigitChar
  if ip ≠ [] then
    match r1 with
    | '.' :: r2 =>
        let fp := r2.takeWhile isDigitChar
        some ((intOfDigits ip : ℚ) + (intOfDigits fp : ℚ) / ((10 : ℚ) ^ fp.length))
    | _ => some (intOfDigits ip)
  else
    match s with
    | '.' :: r2 =>
        let fp := r2.takeWhile isDigitChar
        if fp = [] then none else some ((intOfDigits fp : ℚ) / ((10 : ℚ) ^ fp.length))
    | _ => none

/-- JavaScript numbers that may be `NaN`: `none` is `NaN`. -/
abbrev JsNum := Option ℚ

def jleB (a : JsNum) (q : ℚ) : Bool := match a with | some v => decide (v ≤ q) | none => false

def jgeB (a : JsNum) (q : ℚ) : Bool := match a with | some v => decide (q ≤ v) | none => false

def jgtB (a : JsNum) (q : ℚ) : Bool := match a with | some v => decide (q < v) | none => false

def jltB (a : JsNum) (q : ℚ) : Bool := match a with | some v => decide (v < q) | none => false

/-- `Math.round`: round half toward positive infinity. -/
def qround (q : ℚ) : ℤ := ⌊q + 1/2⌋

/-- `Math.max 0 (Math.min 100 x)` as used on the structure score. -/
def clampI (x : ℤ) : ℤ := max 0 (min 100 x)

/-!  Score-extraction patterns.  Every score regex of the source has the shape
`pre :? \s* (\d+) suf` (or `([\d.]+)` for the float captures), possibly with
alternative leading literals coming from a `(?:..|..)` group, and possibly
without the `:?\s*` separator (the `... of (\d+)` phrasings).  Since `\s` and
the capture classes are disjoint from `:` and from the first character of
every suffix used, the JavaScript backtracking search is equivalent to this
deterministic maximal-munch matcher at each position, and the overall result
is the leftmost position at which it succeeds. -/

structure ScorePat where
  pres : List Str
  colonWs : Bool
  floats : Bool
  suf : Str
deriving DecidableEq

/-- try the alternative leading literals of a pattern, in declaration order, at the head of `t`. -/
def firstPre : List Str → Str → Option Str
  | [], _ => none
  | p :: ps, t =>
    match eatLitCI p t with
    | some r => some r
    | none => firstPre ps t

/-- match a score pattern at the head of `t`, returning the capture. -/
def scoreAt (p : ScorePat) (t : Str) : Option Str :=
  match firstPre p.pres t with
  | none => none
  | some r1 =>
    let r2 := if p.colonWs then (match r1 with | ':' :: r => r | _ => r1) else r1
    let r3 := if p.colonWs then r2.dropWhile (fun c => isWsChar c) else r2
    let cap := r3.takeWhile (fun c => if p.floats then isNumChar c else isDigitChar c)
    if cap = [] then none
    else
      let r4 := r3.drop cap.length
      match eatLitCI p.suf r4 with
      | some _ => some cap
      | none => none

/-- leftmost match of a score pattern: `text.match(re)` restricted to its capture. -/
def scoreFind (p : ScorePat) : Str → Option Str
  | [] => scoreAt p []
  | t@(_ :: rest) =>
    match scoreAt p t with
    | some c => some c
    | none => scoreFind p rest

/-- the `for (regex of regexes) { match; if (match && match[1]) break }` loop over
an ordered pattern list: the first pattern (in declaration order) that matches
anywhere supplies the capture. -/
def scanPats (t : Str) : List ScorePat → Option Str
  | [] => none
  | p :: ps =>
    match scoreFind p t with
    | some c => some c
    | none => scanPats t ps

/-!  Boolean `.test` patterns (signal detectors).  A test pattern is a sequence
of items: case-insensitive literals, `.` (exactly one non-newline character),
`.*?` gaps (any number of non-newline characters), an optional colon, and `\s*`.
`matchSeq` decides whether the sequence matches at the head of the text,
with full backtracking (hence it agrees with the JavaScript engine's notion
of "some match starts here"); `runTest` scans all start positions. -/

inductive TPat where
  | lit : Str → TPat
  | anyCh : TPat
  | gap : TPat
  | optColon : TPat
  | ws : TPat
deriving DecidableEq

def matchSeq (fuel : ℕ) : List TPat → Str → Bool
  | [], _ => true
  | TPat.lit s :: ps, t =>
    match fuel with
    | 0 => false
    | f + 1 => match eatLitCI s t with
      | some r => matchSeq f ps r
      | none => false
  | TPat.anyCh :: ps, t =>
    match fuel with
    | 0 => false
    | f + 1 => match t with
      | c :: r => c ≠ '\n' && matchSeq f ps r
      | [] => false
  | TPat.gap :: ps, t =>
    match fuel with
    | 0 => false
    | f + 1 =>
      matchSeq f ps t ||
        (match t with
         | c :: r => c ≠ '\n' && matchSeq f (TPat.gap :: ps) r
         | [] => false)
  | TPat.optColon :: ps, t =>
    match fuel with
    | 0 => false
    | f + 1 =>
      (match t with
       | ':' :: r => matchSeq f ps r
       | _ => false) || matchSeq f ps t
  | TPat.ws :: ps, t =>
    match fuel with
    | 0 => false
    | f + 1 =>
      matchSeq f ps t ||
        (match t with
         | c :: r => isWsChar c && matchSeq f (TPat.ws :: ps) r
         | [] => false)

def seqFuel (ps : List TPat) (t : Str) : ℕ := ps.length + t.length + 2

/-- `re.test(text)`: does the pattern sequence match anywhere? -/
def runTest (ps : List TPat) : Str → Bool
  | [] => matchSeq (seqFuel ps []) ps []
  | t@(_ :: rest) => matchSeq (seqFuel ps t) ps t || runTest ps rest

/-!  Line captures.  The issue / improvement / recommendation / subtopic /
title / meta patterns all have the shape `pre :? \s* (.*?) (\n|$)` with `pre`
a (possibly alternated) literal.  After the greedy `\s*` (which, unlike `.`,
does cross newlines) the lazy group is forced to be exactly the text up to
the next newline or the end of the string.  `lineFind` returns the capture of
the leftmost match together with the rest of the text after the whole match
(used to advance `startPos` in the source's `while` loops). -/

def lineAt (pres : List Str) (t : Str) : Option (Str × Str) :=
  match firstPre pres t with
  | none => none
  | some r1 =>
    let r2 := match r1 with | ':' :: r => r | _ => r1
    let r3 := r2.dropWhile (fun c => isWsChar c)
    let cap := r3.takeWhile (fun c => c ≠ '\n')
    let r4 := r3.drop cap.length
    let rest := match r4 with | '\n' :: r5 => r5 | _ => r4
    some (cap, rest)

def lineFind (pres : List Str) : Str → Option (Str × Str)
  | [] => none
  | t@(_ :: rest) =>
    match lineAt pres t with
    | some res => some res
    | none => lineFind pres rest

/-!  Quote captures: the keyword patterns `pre "(.*?)"` — the lazy group is the
text up to the next double quote, which must occur before the next newline
(`.` does not match newlines), else the position does not match at all. -/

def quoteAt (pre : Str) (t : Str) : Option Str :=
  match eatLitCI pre t with
  | none => none
  | some r1 =>
    let cap := r1.takeWhile (fun c => c ≠ '"' ∧ c ≠ '\n')
    match r1.drop cap.length with
    | '"' :: _ => some cap
    | _ => none

def quoteFind (pre : Str) : Str → Option Str
  | [] => none
  | t@(_ :: rest) =>
    match quoteAt pre t with
    | some c => some c
    | none => quoteFind pre rest

/-!  The recommendation extractor inside issue classification:
`(should|could|recommend|fix by|implement|add|use|change|improve) (.*?)(\.|$)`.
The lazy group runs up to the first dot; a newline before any dot kills the
match at that position (`$` is end of string, no `m` flag). -/

def recVerbs : List Str :=
  ["should".data, "could".data, "recommend".data, "fix by".data, "implement".data,
   "add".data, "use".data, "change".data, "improve".data]

def verbAt (t : Str) : Option Str :=
  recVerbs.foldl
    (fun acc w =>
      match acc with
      | some c => some c
      | none =>
        match eatLitCI w t with
        | some (' ' :: r2) =>
          let cap := r2.takeWhile (fun c => c ≠ '.' ∧ c ≠ '\n')
          match r2.drop cap.length with
          | [] => some cap
          | '.' :: _ => some cap
          | _ => none
        | _ => none)
    none

def verbFind : Str → Option Str
  | [] => none
  | t@(_ :: rest) =>
    match verbAt t with
    | some c => some c
    | none => verbFind rest

/-- `s.split(/\.|;/)[0]`. -/
def firstSentence (s : Str) : Str := s.takeWhile (fun c => c ≠ '.' ∧ c ≠ ';')

def splitListAux (cur : Str) : Str → List Str
  | [] => [cur.reverse]
  | c :: r =>
    if c = ',' ∨ c = ';' then cur.reverse :: splitListAux [] r
    else splitListAux (c :: cur) r

/-- `s.split(/,|;/)` -/
def splitListDelims (s : Str) : List Str := splitListAux [] s

/-- `s.charAt(0).toUpperCase() + s.slice(1)`. -/
def capHead : Str → Str
  | [] => []
  | c :: r => upperChar c :: r

/-!  `formatTechnicalSeoResults` (src/agents/technicalSeoAgent.ts). -/

def performanceRegexes : List ScorePat :=
  [⟨["performance score".data], true, false, "/100".data⟩,
   ⟨["performance rating".data], true, false, "/100".data⟩,
   ⟨["performance".data], true, false, "/100".data⟩,
   ⟨["performance".data], true, false, " out of 100".data⟩,
   ⟨["performance score of ".data], false, false, [] ⟩]

def mobileRegexes : List ScorePat :=
  [⟨["mobile-friendly score".data], true, false, "/100".data⟩,
   ⟨["mobile score".data], true, false, "/100".data⟩,
   ⟨["mobile".data], true, false, "/100".data⟩,
   ⟨["mobile-friendliness".data], true, false, "/100".data⟩,
   ⟨["mobile optimization score".data], true, false, [] ⟩]

def schemaRegexes : List ScorePat :=
  [⟨["schema score".data], true, false, "/100".data⟩,
   ⟨["structured data score".data], true, false, "/100".data⟩,
   ⟨["schema markup rating".data], true, false, [] ⟩]

def performanceScoreOf (t : Str) : ℤ :=
  match scanPats t performanceRegexes with
  | some c => intOfDigits c
  | none => 65

def mobileScoreOf (t : Str) : ℤ :=
  match scanPats t mobileRegexes with
  | some c => intOfDigits c
  | none => 70

/-- a structure signal: detector pattern and its point delta. -/
abbrev Signal := List TPat × ℤ

def structureSignals : List Signal :=
  [([TPat.lit "clean, semantic urls".data], 10),
   ([TPat.lit "breadcrumb navigation: present".data], 5),
   ([TPat.lit "h1 headings: 1 detected".data], 5),
   ([TPat.lit "canonical url: present".data], 5),
   ([TPat.lit "sitemap: referenced".data], 5),
   ([TPat.lit "robots".data, TPat.anyCh, TPat.lit "txt: present".data], 5),
   ([TPat.lit "information architecture:".data, TPat.gap, TPat.lit "good".data], 10),
   ([TPat.lit "internal links:".data, TPat.gap, TPat.lit "found".data], 5),
   ([TPat.lit "url structure:".data, TPat.gap, TPat.lit "clean".data], 10),
   ([TPat.lit "site navigation: present".data], 5)]

def negativeStructureSignals : List Signal :=
  [([TPat.lit "h1 headings: 0 detected".data], -10),
   ([TPat.lit "h1 headings:".data, TPat.gap, TPat.lit "too many".data], -5),
   ([TPat.lit "canonical url: missing".data], -10),
   ([TPat.lit "robots".data, TPat.anyCh, TPat.lit "txt: not found".data], -5),
   ([TPat.lit "sitemap: not detected".data], -5),
   ([TPat.lit "duplicate content issues".data], -10),
   ([TPat.lit "urls contain undesirable elements".data], -10),
   ([TPat.lit "site navigation: not clearly defined".data], -5)]

def structureTable : List Signal := structureSignals ++ negativeStructureSignals

def sigFires (s : Signal) (t : Str) : Bool := runTest s.1 t

/-- the two `for (signal of ...)` loops: add the delta of every firing signal. -/
def applySignals (t : Str) : List Signal → ℤ → ℤ
  | [], acc => acc
  | s :: rest, acc => applySignals t rest (if sigFires s t then acc + s.2 else acc)

/-- sum of the deltas of the signals that fire on `t`. -/
def signalSum (t : Str) (sigs : List Signal) : ℤ :=
  ((sigs.filter (fun s => sigFires s t)).map (fun s => s.2)).sum

def structureScoreOf (t : Str) : ℤ := clampI (applySignals t structureTable 70)

def schemaWordLikely : Str := "Likely eligible".data
def schemaWordPartially : Str := "Partially eligible".data
def schemaWordTypes : Str := "Schema types detected".data
def schemaWordTypesNone : Str := "Schema types detected: None detected".data
def schemaWordNoneDetected : Str := "None detected".data
def schemaWordNoSchema : Str := "No schema detected".data
def schemaWordJsonLd : Str := "JSON-LD instances:".data
def schemaWordJsonLdZero : Str := "JSON-LD instances: 0".data
def schemaWordHead : Str := "Within <head> tag (recommended)".data
def schemaWordMissing : Str := "Missing recommended properties".data

def schemaScoreOf (t : Str) : ℤ :=
  match scanPats t schemaRegexes with
  | some c => intOfDigits c
  | none =>
    let base : ℤ :=
      if containsCS t schemaWordLikely then 90
      else if containsCS t schemaWordPartially then 70
      else if containsCS t schemaWordTypes && !containsCS t schemaWordNoneDetected then 60
      else if containsCS t schemaWordTypesNone || containsCS t schemaWordNoSchema then 30
      else 50
    let s1 := if containsCS t schemaWordJsonLd && !containsCS t schemaWordJsonLdZero then base + 10 else base
    let s2 := if containsCS t schemaWordHead then s1 + 5 else s1
    let s3 := if containsCS t schemaWordMissing then s2 - 15 else s2
    clampI s3

/-!  Classification of issue / improvement fragments. -/

def issuePerfWords : List Str :=
  ["performance".data, "speed".data, "load time".data, "core web vitals".data,
   "lcp".data, "fid".data, "cls".data, "render".data, "resource".data]

def improvePerfWords : List Str := issuePerfWords ++ ["cache".data, "compress".data]

def mobileWords : List Str :=
  ["mobile".data, "viewport".data, "tap target".data, "screen size".data, "responsive".data]

def schemaCatWords : List Str :=
  ["schema".data, "structured data".data, "markup".data, "json-ld".data,
   "microdata".data, "rich result".data]

def structCatWords : List Str :=
  ["structure".data, "url".data, "h1".data, "canonical".data, "sitemap".data,
   "robot".data, "navigation".data, "internal link".data]

def issueCategoryOf (s : Str) : Str :=
  if anyWordCI s issuePerfWords then "Performance".data
  else if anyWordCI s mobileWords then "Mobile".data
  else if anyWordCI s schemaCatWords then "Schema".data
  else if anyWordCI s structCatWords then "Structure".data
  else "Structure".data

def impactConvWords : List Str :=
  ["conversion".data, "bounce".data, "engagement".data, "revenue".data,
   "ranking".data, "traffic".data]

def impactUxWords : List Str :=
  ["user experience".data, "usability".data, "accessibility".data]

def impactCrawlWords : List Str :=
  ["crawl".data, "index".data, "bot".data, "spider".data]

def issueImpactOf (s : Str) : Str :=
  if anyWordCI s impactConvWords then "Directly impacts conversions and search rankings".data
  else if anyWordCI s impactUxWords then "Degrades user experience and engagement metrics".data
  else if anyWordCI s impactCrawlWords then "Hinders search engine crawling and indexation".data
  else "Reduces search visibility and user experience".data

def issueRecommendationOf (s : Str) : Str :=
  match verbFind s with
  | some cap =>
    if cap ≠ [] then
      let r := capHead (trim cap)
      if r.getLast? = some '.' then r else r ++ ['.']
    else "Fix the issue according to technical SEO best practices".data
  | none => "Fix the issue according to technical SEO best practices".data

def improveCategoryOf (s : Str) : Str :=
  if anyWordCI s improvePerfWords then "Performance".data
  else if anyWordCI s mobileWords then "Mobile".data
  else if anyWordCI s schemaCatWords then "Schema".data
  else if anyWordCI s structCatWords then "Structure".data
  else "Structure".data

def improvePriorityWords : List Str :=
  ["urgent".data, "critical".data, "important".data, "high".data,
   "essential".data, "must".data, "significant".data]

def lowPriorityWords : List Str :=
  ["consider".data, "might".data, "could".data, "option".data, "low".data, "minor".data]

def improvePriorityOf (s : Str) : Str :=
  if anyWordCI s improvePriorityWords then "High".data
  else if anyWordCI s lowPriorityWords then "Low".data
  else "Medium".data

def lowEffortWords : List Str :=
  ["simple".data, "easy".data, "quick".data, "straightforward".data,
   "minor".data, "fast".data]

def highEffortWords : List Str :=
  ["complex".data, "difficult".data, "major".data, "extensive".data,
   "significant".data, "time-consuming".data]

def improveEffortOf (s : Str) : Str :=
  if anyWordCI s lowEffortWords then "Low".data
  else if anyWordCI s highEffortWords then "High".data
  else "Medium".data

structure IssueItem where
  category : Str
  issue : Str
  impact : Str
  recommendation : Str
deriving DecidableEq

structure ImprovementItem where
  category : Str
  recommendation : Str
  priority : Str
  effort : Str
deriving DecidableEq

def issueRegexPres : List (List Str) :=
  [["critical issue".data], ["major problem".data], ["significant issue".data],
   ["high priority".data], ["urgent fix".data]]

def mkIssueItem (issue : Str) : IssueItem :=
  ⟨issueCategoryOf issue, trim (firstSentence issue), issueImpactOf issue,
   issueRecommendationOf issue⟩

/-- the `while` loop scanning one issue regex over the remaining text. -/
def issueLoop (pres : List Str) (fuel : ℕ) (t : Str) (acc : List IssueItem) :
    List IssueItem :=
  match fuel with
  | 0 => acc
  | f + 1 =>
    match lineFind pres t with
    | none => acc
    | some (cap, rest) =>
      let issue := trim cap
      let acc2 := if 15 < issue.length then acc ++ [mkIssueItem issue] else acc
      if 5 ≤ acc2.length then acc2 else issueLoop pres f rest acc2

def directIssues (t : Str) : List IssueItem :=
  issueRegexPres.foldl
    (fun acc pres => if 5 ≤ acc.length then acc else issueLoop pres (t.length + 1) t acc)
    []

def lcpRegex : ScorePat :=
  ⟨["estimated largest contentful paint".data], true, true, "s".data⟩

def lcpHigh (t : Str) : Bool :=
  match scoreFind lcpRegex t with
  | some c => jgtB (parseFloatDD c) (5/2)
  | none => false

def tapTargetsRegex : ScorePat := ⟨["small tap targets".data], true, false, [] ⟩

def tapTargetsMany (t : Str) : Bool :=
  match scoreFind tapTargetsRegex t with
  | some c => decide ((5 : ℤ) < intOfDigits c)
  | none => false

def fallbackIssues (t : Str) (perf mobile : ℤ) : List IssueItem :=
  (if perf < 70 then
    (if containsCS t ("Render-blocking resources".data) then
      [⟨"Performance".data, "Render-blocking resources detected".data,
        "Slows down page rendering and initial content display".data,
        "Defer non-critical JavaScript and CSS resources".data⟩] else []) ++
    (if containsCS t ("Unoptimized images".data) then
      [⟨"Performance".data, "Unoptimized images".data,
        "Increases page load time and bandwidth usage".data,
        "Optimize images and implement lazy loading".data⟩] else []) ++
    (if lcpHigh t then
      [⟨"Performance".data, "High Largest Contentful Paint (LCP)".data,
        "Negatively affects Core Web Vitals and user experience".data,
        "Optimize the largest element (usually hero image) and improve server response time".data⟩]
     else [])
   else []) ++
  (if mobile < 70 then
    (if containsCS t ("Viewport configured: No".data) then
      [⟨"Mobile".data, "Missing viewport meta tag".data,
        "Page won't scale properly on mobile devices".data,
        "Add a viewport meta tag with width=device-width, initial-scale=1".data⟩] else []) ++
    (if tapTargetsMany t then
      [⟨"Mobile".data, "Small tap targets".data,
        "Difficult for users to tap elements on mobile devices".data,
        "Increase size of buttons and interactive elements to at least 44px".data⟩] else []) ++
    (if containsCS t ("Potential horizontal scrolling issues: Yes".data) then
      [⟨"Mobile".data, "Horizontal scrolling issues".data,
        "Poor user experience on mobile devices".data,
        "Implement responsive design with relative width units and proper viewport".data⟩]
     else [])
   else []) ++
  (if containsCS t ("H1 headings: 0 detected".data) then
    [⟨"Structure".data, "Missing H1 heading".data,
      "Reduces content hierarchy clarity for users and search engines".data,
      "Add a single H1 heading that includes the main keyword".data⟩] else []) ++
  (if containsCS t ("URL parameters may cause duplicate content".data) then
    [⟨"Structure".data, "Potential duplicate content".data,
      "Search engines may index multiple versions of the same page".data,
      "Implement canonical tags or fix URL parameters".data⟩] else []) ++
  (if containsCS t ("Canonical URL: Missing".data) then
    [⟨"Structure".data, "Missing canonical URL".data,
      "May cause duplicate content issues with similar pages".data,
      "Add canonical tags to indicate the preferred version of the page".data⟩] else []) ++
  (if containsCS t schemaWordTypesNone then
    [⟨"Schema".data, "Missing structured data".data,
      "No rich results in search engines".data,
      "Implement JSON-LD structured data for your content type".data⟩]
   else if containsCS t ("Missing recommended properties:".data) then
    [⟨"Schema".data, "Incomplete schema markup".data,
      "May not qualify for rich results in search engines".data,
      "Add missing recommended properties to schema markup".data⟩]
   else [])

def criticalIssuesOf (t : Str) (perf mobile : ℤ) : List IssueItem :=
  let direct := directIssues t
  if direct.length < 3 then direct ++ fallbackIssues t perf mobile else direct

def improvementRegexPres : List (List Str) :=
  [["recommendation".data, "recommended".data],
   ["suggestion".data, "suggested".data],
   ["improvement".data, "improve".data],
   ["fix".data],
   ["optimization".data]]

def mkImprovementItem (s : Str) : ImprovementItem :=
  ⟨improveCategoryOf s, trim (firstSentence s) ++ ['.'],
   improvePriorityOf s, improveEffortOf s⟩

def improveLoop (pres : List Str) (fuel : ℕ) (t : Str) (acc : List ImprovementItem) :
    List ImprovementItem :=
  match fuel with
  | 0 => acc
  | f + 1 =>
    match lineFind pres t with
    | none => acc
    | some (cap, rest) =>
      let imp := trim cap
      let acc2 := if 20 < imp.length then acc ++ [mkImprovementItem imp] else acc
      if 7 ≤ acc2.length then acc2 else improveLoop pres f rest acc2

def directImprovements (t : Str) : List ImprovementItem :=
  improvementRegexPres.foldl
    (fun acc pres => if 7 ≤ acc.length then acc else improveLoop pres (t.length + 1) t acc)
    []

def missingPropsPres : List Str := ["missing recommended properties".data]

def fallbackImprovements (t : Str) (perf mobile schema : ℤ) : List ImprovementItem :=
  (if perf < 90 then
    (if containsCS t ("Render-blocking resources".data) then
      [⟨"Performance".data,
        "Eliminate render-blocking resources by deferring non-critical CSS/JS".data,
        "High".data, "Medium".data⟩] else []) ++
    (if containsCS t ("Unoptimized images".data) then
      [⟨"Performance".data, "Optimize images and implement lazy loading".data,
        "Medium".data, "Low".data⟩] else []) ++
    (if lcpHigh t then
      [⟨"Performance".data,
        "Optimize Largest Contentful Paint by improving server response time and resource loading".data,
        "High".data, "Medium".data⟩] else []) ++
    (if containsCS t ("Total resources:".data) then
      [⟨"Performance".data,
        "Reduce the number of resource requests by combining files and eliminating unnecessary scripts".data,
        "Medium".data, "Medium".data⟩] else [])
   else []) ++
  (if mobile < 90 then
    (if containsCS t ("small tap targets".data) then
      [⟨"Mobile".data, "Increase size of tap targets for better mobile usability".data,
        "Medium".data, "Low".data⟩] else []) ++
    (if containsCS t ("Potential horizontal scrolling issues: Yes".data) then
      [⟨"Mobile".data, "Fix horizontal scrolling issues with responsive design".data,
        "High".data, "Medium".data⟩] else []) ++
    (if containsCS t ("Media queries: Not detected".data) then
      [⟨"Mobile".data, "Implement media queries for responsive design across all devices".data,
        "High".data, "Medium".data⟩] else [])
   else []) ++
  (if !containsCS t ("Sitemap: Referenced in robots.txt".data) then
    [⟨"Structure".data, "Add XML sitemap and reference it in robots.txt".data,
      "Medium".data, "Low".data⟩] else []) ++
  (if !containsCS t ("Canonical URL: Present".data) then
    [⟨"Structure".data, "Add canonical tags to prevent duplicate content issues".data,
      "Medium".data, "Low".data⟩] else []) ++
  (if containsCS t ("H1 headings: 0 detected".data) || containsCS t ("H1 headings: Missing".data) then
    [⟨"Structure".data,
      "Add a single, descriptive H1 heading that includes the primary keyword".data,
      "High".data, "Low".data⟩] else []) ++
  (if containsCS t schemaWordTypesNone then
    [⟨"Schema".data,
      "Implement JSON-LD structured data markup relevant to your content type".data,
      "Medium".data, "Medium".data⟩]
   else if containsCS t ("Missing recommended properties:".data) then
    (match lineFind missingPropsPres t with
     | some (cap, _) =>
       if cap ≠ [] then
         [⟨"Schema".data,
           ("Add missing schema properties: ".data) ++ cap.take 40 ++ ("...".data),
           "Medium".data, "Low".data⟩]
       else []
     | none => [])
   else if !containsCS t ("JSON-LD".data) && schema < 80 then
    [⟨"Schema".data,
      "Convert existing schema markup to JSON-LD format for better compatibility".data,
      "Low".data, "Medium".data⟩]
   else [])

def improvementsOf (t : Str) (perf mobile schema : ℤ) : List ImprovementItem :=
  let direct := directImprovements t
  if 4 ≤ direct.length then direct else direct ++ fallbackImprovements t perf mobile schema

/-- the duplicate test of the `reduce`: same category and one 20-character
lower-case leading segment contained in the other (both directions). -/
def isDupPair (item cur : ImprovementItem) : Bool :=
  item.category = cur.category &&
    (containsCS (lowerStr item.recommendation) ((lowerStr cur.recommendation).take 20) ||
     containsCS (lowerStr cur.recommendation) ((lowerStr item.recommendation).take 20))

def isDupIn (acc : List ImprovementItem) (cur : ImprovementItem) : Bool :=
  acc.any (fun item => isDupPair item cur)

def dedupeAux (acc : List ImprovementItem) : List ImprovementItem → List ImprovementItem
  | [] => acc
  | c :: rest =>
    if isDupIn acc c then dedupeAux acc rest else dedupeAux (acc ++ [c]) rest

/-- the `improvements.reduce(...)` duplicate-removal pass. -/
def uniqueImprovements (l : List ImprovementItem) : List ImprovementItem := dedupeAux [] l

structure TechnicalSeoResult where
  overallScore : ℤ
  structureScore : ℤ
  performanceScore : ℤ
  mobileScore : ℤ
  schemaScore : ℤ
  criticalIssues : List IssueItem
  improvements : List ImprovementItem
deriving DecidableEq

def formatTechnicalSeoResults (t : Str) : TechnicalSeoResult :=
  let performanceScore := performanceScoreOf t
  let mobileScore := mobileScoreOf t
  let structureScore := structureScoreOf t
  let schemaScore := schemaScoreOf t
  let overallScore :=
    qround ((performanceScore : ℚ) * 0.4 + (mobileScore : ℚ) * 0.25 +
      (structureScore : ℚ) * 0.2 + (schemaScore : ℚ) * 0.15)
  { overallScore := overallScore
    structureScore := structureScore
    performanceScore := performanceScore
    mobileScore := mobileScore
    schemaScore := schemaScore
    criticalIssues := (criticalIssuesOf t performanceScore mobileScore).take 3
    improvements := (uniqueImprovements (improvementsOf t performanceScore mobileScore schemaScore)).take 5 }

/-!  `formatContentResults` (same source file). -/

def readabilityRegexes : List ScorePat :=
  [⟨["flesch-kincaid score".data], true, false, [] ⟩,
   ⟨["readability score".data], true, false, [] ⟩,
   ⟨["fk score".data], true, false, [] ⟩,
   ⟨["readability".data], true, false, [] ⟩,
   ⟨["readability rating of ".data], false, false, [] ⟩]

def readabilityScoreOf (t : Str) : ℤ :=
  match scanPats t readabilityRegexes with
  | some c => intOfDigits c
  | none => 65

def keywordDensityRegexes : List ScorePat :=
  [⟨["keyword density".data], true, true, "%".data⟩,
   ⟨["density".data], true, true, "%".data⟩,
   ⟨["keyword frequency".data], true, true, "%".data⟩,
   ⟨["keyword usage".data], true, true, "%".data⟩,
   ⟨["keyword appears at a ".data, "keyword appears at an ".data], false, true, "% density".data⟩]

/-- `keywordDensity`: default 1.5, `NaN` (`none`) when a matched capture does
not parse as a number. -/
def keywordDensityOf (t : Str) : JsNum :=
  match scanPats t keywordDensityRegexes with
  | some c => parseFloatDD c
  | none => some (3/2)

def h1InclusionTests : List (List TPat) :=
  [[TPat.lit "h1/title inclusion".data, TPat.optColon, TPat.ws, TPat.lit "yes".data],
   [TPat.lit "keyword".data, TPat.gap, TPat.lit "found".data, TPat.gap, TPat.lit "h1".data],
   [TPat.lit "h1".data, TPat.gap, TPat.lit "contains".data, TPat.gap, TPat.lit "keyword".data],
   [TPat.lit "keyword".data, TPat.gap, TPat.lit "present".data, TPat.gap, TPat.lit "title".data],
   [TPat.lit "title".data, TPat.gap, TPat.lit "includes".data, TPat.gap, TPat.lit "keyword".data]]

def keywordInH1Of (t : Str) : Bool := h1InclusionTests.any (fun ps => runTest ps t)

def introInclusionTests : List (List TPat) :=
  [[TPat.lit "first 100 words".data, TPat.optColon, TPat.ws, TPat.lit "yes".data],
   [TPat.lit "keyword".data, TPat.gap, TPat.lit "found".data, TPat.gap, TPat.lit "introduction".data],
   [TPat.lit "keyword".data, TPat.gap, TPat.lit "present".data, TPat.gap, TPat.lit "beginning".data],
   [TPat.lit "introduction".data, TPat.gap, TPat.lit "contains".data, TPat.gap, TPat.lit "keyword".data],
   [TPat.lit "keyword".data, TPat.gap, TPat.lit "appears".data, TPat.gap, TPat.lit "first".data,
    TPat.gap, TPat.lit "paragraph".data]]

def keywordInIntroOf (t : Str) : Bool := introInclusionTests.any (fun ps => runTest ps t)

/-- the density adjustment of the keyword score (0 when the density is `NaN`,
since every comparison against `NaN` is false). -/
def densityDelta (kd : JsNum) : ℤ :=
  if jgeB kd (1/2) && jleB kd (5/2) then 20
  else if jgtB kd (5/2) && jleB kd (7/2) then 10
  else if jgtB kd (7/2) then -10
  else if jltB kd (1/2) then -15
  else 0

/-- `keywordScore`: base 60, density and placement adjustments, one final clamp
`Math.min(100, Math.max(0, ·))`. -/
def keywordScoreOf (t : Str) : ℤ :=
  let kd := keywordDensityOf t
  let s1 := 60 + densityDelta kd
  let s2 := if keywordInH1Of t then s1 + 10 else s1
  let s3 := if keywordInIntroOf t then s2 + 10 else s2
  min 100 (max 0 s3)

/-- a semantic pattern: leading literals, separator flag, and whether the capture is a
percentage (`(\d+)%`, divided by 10) or a `([\d.]+)/10` value. -/
structure SemPat where
  pres : List Str
  colonWs : Bool
  pct : Bool
deriving DecidableEq

def semanticScoreRegexes : List SemPat :=
  [⟨["topic coverage score".data], true, false⟩,
   ⟨["semantic relevance".data], true, false⟩,
   ⟨["semantic score".data], true, false⟩,
   ⟨["semantic depth".data], true, false⟩,
   ⟨["topical coverage".data], true, false⟩,
   ⟨["semantic coverage of ".data], false, true⟩,
   ⟨["topic coverage".data], true, true⟩]

def semPatScore (p : SemPat) : ScorePat :=
  if p.pct then ⟨p.pres, p.colonWs, false, "%".data⟩
  else ⟨p.pres, p.colonWs, true, "/10".data⟩

/-- capture of the first semantic pattern that matches, tagged with its kind;
`none` when no pattern matches at all. -/
def semanticCapture (t : Str) : Option (Str × Bool) :=
  semanticScoreRegexes.foldl
    (fun acc p =>
      match acc with
      | some r => some r
      | none =>
        match scoreFind (semPatScore p) t with
        | some c => some (c, p.pct)
        | none => none)
    none

/-- `topicScoreRaw`: default 7; percentage captures are `parseInt/10`, the
others `parseFloat` (possibly `NaN`). -/
def topicScoreRawOf (t : Str) : JsNum :=
  match semanticCapture t with
  | none => some 7
  | some (c, pct) => if pct then some ((intOfDigits c : ℚ) / 10) else parseFloatDD c

/-- `semanticScore = Math.round(topicScoreRaw * 10)` (NaN propagates). -/
def semanticScoreOf (t : Str) : JsNum :=
  (topicScoreRawOf t).map (fun q => ((qround (q * 10) : ℤ) : ℚ))

/-- `contentScore = Math.round(read*0.3 + kw*0.4 + semantic*0.3)` (NaN propagates). -/
def contentScoreOf (t : Str) : JsNum :=
  (semanticScoreOf t).map (fun s =>
    ((qround ((readabilityScoreOf t : ℚ) * 0.3 + (keywordScoreOf t : ℚ) * 0.4 + s * 0.3) : ℤ) : ℚ))

def missingSubtopicsPres : List (List Str) :=
  [["missing subtopics".data], ["content should cover".data], ["topics to add".data],
   ["recommended subtopics".data], ["consider adding sections on".data],
   ["important subtopics missing".data]]

def subtopicsFromCapture (cap : Str) : List Str :=
  ((splitListDelims cap).map trim).filter (fun s => s ≠ ("None".data) ∧ s ≠ [])

def missingSubtopicsOf (t : Str) : List Str :=
  missingSubtopicsPres.foldl
    (fun acc pres =>
      match acc with
      | some r => some r
      | none =>
        match lineFind pres t with
        | some (cap, _) =>
          if cap ≠ [] then
            let subs := subtopicsFromCapture cap
            if subs ≠ [] then some subs else none
          else none
        | none => none)
    none |>.getD ["Topic research needed".data]

structure RecItem where
  priority : Str
  category : Str
  suggestion : Str
deriving DecidableEq

def recommendationRegexPres : List (List Str) :=
  [["recommendation".data],
   ["suggestion".data, "suggested".data],
   ["improve".data],
   ["priority".data, "prioritize".data],
   ["should".data],
   ["consider".data]]

def contentKeywordCatWords : List Str :=
  ["keyword".data, "densit".data, "placement".data, "h1".data, "title".data]

def contentReadabilityCatWords : List Str :=
  ["readab".data, "sentence".data, "paragraph".data, "complex".data, "jargon".data]

def contentSemanticCatWords : List Str :=
  ["semantic".data, "topic".data, "subtopic".data, "coverage".data, "depth".data]

def contentStructureCatWords : List Str :=
  ["structure".data, "format".data, "heading".data, "subhead".data, "layout".data]

def contentMetaCatWords : List Str :=
  ["meta".data, "description".data, "title tag".data, "schema".data]

def contentCategoryOf (s : Str) : Str :=
  if anyWordCI s contentKeywordCatWords then "Keyword Usage".data
  else if anyWordCI s contentReadabilityCatWords then "Readability".data
  else if anyWordCI s contentSemanticCatWords then "Semantic Relevance".data
  else if anyWordCI s contentStructureCatWords then "Content Structure".data
  else if anyWordCI s contentMetaCatWords then "Meta Data".data
  else "Content Structure".data

def contentPriorityWords : List Str :=
  ["urgent".data, "critical".data, "important".data, "high".data,
   "essential".data, "must".data]

def contentPriorityOf (s : Str) : Str :=
  if anyWordCI s contentPriorityWords then "High".data
  else if anyWordCI s lowPriorityWords then "Low".data
  else "Medium".data

def mkRecItem (s : Str) : RecItem := ⟨contentPriorityOf s, contentCategoryOf s, s⟩

/-- the recommendation `while` loop: no item cap here, every match of every
pattern is collected. -/
def recLoop (pres : List Str) (fuel : ℕ) (t : Str) (acc : List RecItem) : List RecItem :=
  match fuel with
  | 0 => acc
  | f + 1 =>
    match lineFind pres t with
    | none => acc
    | some (cap, rest) =>
      let sug := trim cap
      let acc2 := if 15 < sug.length then acc ++ [mkRecItem sug] else acc
      recLoop pres f rest acc2

def directRecommendations (t : Str) : List RecItem :=
  recommendationRegexPres.foldl
    (fun acc pres => recLoop pres (t.length + 1) t acc)
    []

def avgSentencePat : ScorePat := ⟨["average sentence length".data], true, true, [] ⟩

def avgSentenceLengthOf (t : Str) : JsNum :=
  match scoreFind avgSentencePat t with
  | some c => parseFloatDD c
  | none => some 20

def avgParaPat : ScorePat := ⟨["average paragraph length".data], true, true, [] ⟩

def avgParaLengthOf (t : Str) : JsNum :=
  match scoreFind avgParaPat t with
  | some c => parseFloatDD c
  | none => some 100

def fallbackRecommendations (t : Str) : List RecItem :=
  let kd := keywordDensityOf t
  let subs := missingSubtopicsOf t
  (if !keywordInH1Of t then
    [⟨"High".data, "Keyword Usage".data,
      "Include target keyword in H1 heading".data⟩] else []) ++
  (if jltB kd (1/2) then
    [⟨"High".data, "Keyword Usage".data,
      "Increase keyword usage throughout the content to at least 0.5% density".data⟩]
   else if jgtB kd 3 then
    [⟨"Medium".data, "Keyword Usage".data,
      "Reduce keyword density to 1-2% to avoid keyword stuffing".data⟩]
   else []) ++
  (if jgtB (avgSentenceLengthOf t) 20 then
    [⟨"Medium".data, "Readability".data,
      "Break long sentences into shorter ones for better readability (aim for 15-20 words per sentence)".data⟩]
   else []) ++
  (if jgtB (avgParaLengthOf t) 70 then
    [⟨"Medium".data, "Readability".data,
      "Break long paragraphs into shorter ones (3-4 sentences max) to improve readability".data⟩]
   else []) ++
  (if subs.length > 0 ∧ subs.headD [] ≠ ("None".data) then
    [⟨"Medium".data, "Semantic Relevance".data,
      ("Add sections on ".data) ++ (List.intercalate (" and ".data) (subs.take 2)) ++
        (" to improve topical coverage and relevance".data)⟩]
   else []) ++
  (if jltB (semanticScoreOf t) 60 then
    [⟨"High".data, "Semantic Relevance".data,
      "Expand content to cover more aspects of the topic for better search visibility".data⟩]
   else [])

def recommendationsOf (t : Str) : List RecItem :=
  let direct := directRecommendations t
  if 3 ≤ direct.length then direct else direct ++ fallbackRecommendations t

def keywordQuotePres : List Str :=
  ["for \"".data, "keyword \"".data, "analyzing \"".data, "optimizing for \"".data]

def keywordOf (t : Str) : Str :=
  keywordQuotePres.foldl
    (fun acc pre =>
      match acc with
      | some k => some k
      | none =>
        match quoteFind pre t with
        | some cap => if cap ≠ [] then some cap else none
        | none => none)
    none |>.getD ("your topic".data)

def titleRegexPres : List (List Str) :=
  [["improved title".data], ["suggested title".data], ["recommended title".data],
   ["title tag".data], ["optimal title".data]]

def defaultTitle (kw : Str) : Str :=
  capHead kw ++ (": Complete Guide & Best Practices | YourBrand".data)

/-- the title / meta loops: the first pattern whose (untrimmed) capture is long
enough supplies the value, which is then trimmed. -/
def pickLine (pats : List (List Str)) (minLen : ℕ) (t : Str) (dflt : Str) : Str :=
  match pats with
  | [] => dflt
  | pres :: ps =>
    match lineFind pres t with
    | some (cap, _) =>
      if minLen < cap.length then trim cap else pickLine ps minLen t dflt
    | none => pickLine ps minLen t dflt

def improvedTitleOf (t : Str) : Str :=
  pickLine titleRegexPres 10 t (defaultTitle (keywordOf t))

def metaRegexPres : List (List Str) :=
  [["improved meta description".data], ["suggested meta description".data],
   ["recommended meta".data], ["meta description".data], ["optimal meta".data]]

def defaultMeta (kw : Str) : Str :=
  ("Learn everything about ".data) ++ kw ++
    (" in this comprehensive guide. Discover best practices, examples, and expert tips to maximize your results.".data)

def improvedMetaDescriptionOf (t : Str) : Str :=
  pickLine metaRegexPres 20 t (defaultMeta (keywordOf t))

structure ContentOptimizationResult where
  contentScore : JsNum
  readabilityScore : ℤ
  keywordScore : ℤ
  semanticScore : JsNum
  recommendations : List RecItem
  missingSubtopics : List Str
  improvedTitle : Option Str
  improvedMetaDescription : Option Str
deriving DecidableEq

def formatContentResults (t : Str) : ContentOptimizationResult :=
  { contentScore := contentScoreOf t
    readabilityScore := readabilityScoreOf t
    keywordScore := keywordScoreOf t
    semanticScore := semanticScoreOf t
    recommendations := (recommendationsOf t).take 5
    missingSubtopics := missingSubtopicsOf t
    improvedTitle := some (improvedTitleOf t)
    improvedMetaDescription := some (improvedMetaDescriptionOf t) }

/-- the literal phrases whose presence drives the schema signal chain. -/
def schemaNeutralWords : List Str :=
  [schemaWordLikely, schemaWordPartially, schemaWordTypes, schemaWordTypesNone,
   schemaWordNoneDetected, schemaWordNoSchema, schemaWordJsonLd, schemaWordJsonLdZero,
   schemaWordHead, schemaWordMissing]

/-- the first recommendation of the spec's dedupe scenario. -/
def imgLazyItem : ImprovementItem :=
  ⟨"Performance".data, "Optimize images and implement lazy loading".data,
   "Medium".data, "Low".data⟩

/-- the second recommendation of the spec's dedupe scenario. -/
def imgFasterItem : ImprovementItem :=
  ⟨"Performance".data, "Optimize images for faster loading".data,
   "Medium".data, "Low".data⟩

/-- a narrative firing six positive structure signals (raw total 70+35 = 105). -/
def sigDemoText : Str :=
  ("Clean, semantic URLs. Breadcrumb navigation: Present. H1 headings: 1 detected. Canonical URL: Present. Sitemap: Referenced. Robots.txt: Present.").data

/-- a narrative whose performance-rating phrasing appears before its
performance-score phrasing. -/
def precedenceDemoText : Str :=
  ("Performance rating: 40/100 and Performance score: 80/100").data

/-!  Helper lemmas. -/

theorem formatTechnicalSeoResults_performanceScore (t : Str) :
    (formatTechnicalSeoResults t).performanceScore = performanceScoreOf t := rfl

theorem formatTechnicalSeoResults_mobileScore (t : Str) :
    (formatTechnicalSeoResults t).mobileScore = mobileScoreOf t := rfl

theorem formatTechnicalSeoResults_structureScore (t : Str) :
    (formatTechnicalSeoResults t).structureScore = structureScoreOf t := rfl

theorem formatTechnicalSeoResults_schemaScore (t : Str) :
    (formatTechnicalSeoResults t).schemaScore = schemaScoreOf t := rfl

theorem formatTechnicalSeoResults_overallScore (t : Str) :
    (formatTechnicalSeoResults t).overallScore =
      qround ((performanceScoreOf t : ℚ) * 0.4 + (mobileScoreOf t : ℚ) * 0.25 +
        (structureScoreOf t : ℚ) * 0.2 + (schemaScoreOf t : ℚ) * 0.15) := rfl

theorem formatContentResults_keywordScore (t : Str) :
    (formatContentResults t).keywordScore = keywordScoreOf t := rfl

theorem formatContentResults_semanticScore (t : Str) :
    (formatContentResults t).semanticScore = semanticScoreOf t := rfl

theorem scanPats_of_none (t : Str) :
    ∀ ps : List ScorePat, (∀ p ∈ ps, scoreFind p t = none) → scanPats t ps = none := by
  intro ps
  induction ps with
  | nil => intro _; rfl
  | cons p rest ih =>
    intro h
    have hp := h p (by simp)
    have hrest := ih (fun q hq => h q (by simp [hq]))
    simp [scanPats, hp, hrest]

theorem scanPats_append (t : Str) (p : ScorePat) (c : Str) :
    ∀ (pre suf : List ScorePat), (∀ q ∈ pre, scoreFind q t = none) →
      scoreFind p t = some c → scanPats t (pre ++ p :: suf) = some c := by
  intro pre
  induction pre with
  | nil =>
    intro suf _ hp
    simp [scanPats, hp]
  | cons q rest ih =>
    intro suf h hp
    have hq := h q (by simp)
    have := ih suf (fun r hr => h r (by simp [hr])) hp
    simp [scanPats, hq, this]

theorem applySignals_add (t : Str) :
    ∀ (sigs : List Signal) (acc : ℤ), applySignals t sigs acc = acc + signalSum t sigs := by
  intro sigs
  induction sigs with
  | nil => intro acc; simp [applySignals, signalSum]
  | cons s rest ih =>
    intro acc
    cases h : sigFires s t with
    | true =>
      simp [applySignals, h, ih, signalSum, List.filter_cons]
      omega
    | false =>
      simp only [applySignals, h, ih, signalSum, List.filter_cons]
      simp [h]

theorem signalSum_perm (t : Str) {s1 s2 : List Signal} (h : List.Perm s1 s2) :
    signalSum t s1 = signalSum t s2 :=
  List.Perm.sum_eq (List.Perm.map _ (List.Perm.filter _ h))

theorem takeWhile_all {α : Type} (p : α → Bool) :
    ∀ l : List α, (∀ c ∈ l, p c = true) → l.takeWhile p = l := by
  intro l
  induction l with
  | nil => intro _; rfl
  | cons c r ih =>
    intro h
    simp [List.takeWhile, h c (by simp), ih (fun d hd => h d (by simp [hd]))]

theorem dropWhile_all {α : Type} (p : α → Bool) :
    ∀ l : List α, (∀ c ∈ l, p c = true) → l.dropWhile p = [] := by
  intro l
  induction l with
  | nil => intro _; rfl
  | cons c r ih =>
    intro h
    simp [List.dropWhile, h c (by simp), ih (fun d hd => h d (by simp [hd]))]

/-- on an all-digit nonempty capture, `parseFloat` is exact. -/
theorem parseFloatDD_digits (s : Str) (h : ∀ c ∈ s, isDigitChar c = true)
    (hne : s ≠ []) : parseFloatDD s = some ((intOfDigits s : ℚ)) := by
  unfold parseFloatDD
  rw [takeWhile_all _ s h, dropWhile_all _ s h]
  simp [hne]

theorem applySignals_nofire (t : Str) :
    ∀ (sigs : List Signal), (∀ s ∈ sigs, sigFires s t = false) →
      ∀ acc, applySignals t sigs acc = acc := by
  intro sigs
  induction sigs with
  | nil => intro _ acc; rfl
  | cons s rest ih =>
    intro h acc
    have hs := h s (by simp)
    simp [applySignals, hs, ih (fun q hq => h q (by simp [hq]))]

/-!  Claim theorems. -/

/-- C1 counterexample: a directly stated score is copied into the record
unclamped, so the narrative "Performance score: 250/100" yields
performanceScore 250 > 100, and "Topic coverage score: 50/10" yields
semanticScore 500 > 100; the claimed [0,100] invariant fails. -/
theorem C1_counterexample :
    (formatTechnicalSeoResults (("Performance score: 250/100").data)).performanceScore = 250 ∧
    ¬ (formatTechnicalSeoResults (("Performance score: 250/100").data)).performanceScore ≤ 100 ∧
    (formatContentResults (("Topic coverage score: 50/10").data)).semanticScore = some 500 := by
  refine ⟨by decide, by decide, ?_⟩
  have hcap : semanticCapture (("Topic coverage score: 50/10").data) =
      some ((("50").data), false) := by decide
  rw [formatContentResults_semanticScore]
  unfold semanticScoreOf topicScoreRawOf
  rw [hcap]
  simp only [Bool.false_eq_true, if_false]
  rw [parseFloatDD_digits _ (by decide) (by decide)]
  have h50 : intOfDigits (("50").data) = 50 := by decide
  rw [h50]
  simp only [Option.map_some']
  norm_num [qround]

/-- C1 (amended): only the signal-scored fields carry the range-clamp
invariant: structureScore and keywordScore always lie in [0,100]; the
directly-parsed score fields take the parsed value unclamped. -/
theorem C1_clamped_signal_scores (t : Str) :
    0 ≤ (formatTechnicalSeoResults t).structureScore ∧
    (formatTechnicalSeoResults t).structureScore ≤ 100 ∧
    0 ≤ (formatContentResults t).keywordScore ∧
    (formatContentResults t).keywordScore ≤ 100 := by
  rw [formatTechnicalSeoResults_structureScore, formatContentResults_keywordScore]
  unfold structureScoreOf clampI keywordScoreOf
  refine ⟨le_max_left 0 _, max_le (by norm_num) (min_le_left _ _), ?_, min_le_left _ _⟩
  exact le_min (by norm_num) (le_max_left 0 _)

/-- C2 counterexample: on "Topic coverage score: ./10" a semantic pattern does
match, but its captured group "." is not a valid number; the code propagates
the resulting NaN (modelled as `none`) into semanticScore and contentScore
instead of falling through to the default path (which would give `some 70`). -/
theorem C2_counterexample :
    (formatContentResults (("Topic coverage score: ./10").data)).semanticScore = none ∧
    (formatContentResults (("Topic coverage score: ./10").data)).contentScore = none ∧
    (semanticCapture (("Topic coverage score: ./10").data)).isSome = true := by
  refine ⟨by decide, by decide, by decide⟩

/-- C2 (amended): both formatters are total functions that always return a
fully-populated record, and a pattern that matches nothing does fall through
to the default path (65 for performanceScore, 70 for semanticScore); only an
invalid numeric capture escapes that rule, producing NaN instead. -/
theorem C2_total_with_defaults (t : Str) :
    (semanticCapture t = none → (formatContentResults t).semanticScore = some 70) ∧
    (scanPats t performanceRegexes = none →
      (formatTechnicalSeoResults t).performanceScore = 65) ∧
    (formatContentResults t).improvedTitle.isSome = true ∧
    (formatContentResults t).improvedMetaDescription.isSome = true := by
  refine ⟨?_, ?_, rfl, rfl⟩
  · intro h
    rw [formatContentResults_semanticScore]
    unfold semanticScoreOf topicScoreRawOf
    rw [h]
    simp only [Option.map_some']
    norm_num [qround]
  · intro h
    rw [formatTechnicalSeoResults_performanceScore]
    unfold performanceScoreOf
    rw [h]

/-- C2 witness: on the empty narrative both default paths are taken. -/
theorem C2_total_with_defaults_witness :
    (formatContentResults ([] : Str)).semanticScore = some 70 ∧
    (formatTechnicalSeoResults ([] : Str)).performanceScore = 65 :=
  ⟨(C2_total_with_defaults []).1 (by decide), (C2_total_with_defaults []).2.1 (by decide)⟩

/-- C6 counterexample: the two image recommendations are NOT merged by the
dedupe pass: their 20-character lower-case leading segments are
"optimize images and " and "optimize images for ", neither of which occurs in
the other recommendation, so the second item is kept. -/
theorem C6_counterexample :
    uniqueImprovements [imgLazyItem, imgFasterItem] ≠ [imgLazyItem] := by decide

/-- C6 (amended): under the 20-character truncated leading-segment rule the pair
"Optimize images and implement lazy loading" / "Optimize images for faster
loading" (same category) is not a duplicate pair in either direction, and the
dedupe pass keeps both items. -/
theorem C6_both_kept :
    uniqueImprovements [imgLazyItem, imgFasterItem] = [imgLazyItem, imgFasterItem] ∧
    isDupPair imgLazyItem imgFasterItem = false ∧
    isDupPair imgFasterItem imgLazyItem = false := by
  refine ⟨by decide, by decide, by decide⟩

/-- C7: the fragment "This is an urgent fix for mobile tap targets" is
classified category "Mobile", priority "High" (keyword "urgent"), effort
"Medium" (no effort keyword matches, default applies). -/
theorem C7_classification :
    improveCategoryOf (("This is an urgent fix for mobile tap targets").data) =
      ("Mobile").data ∧
    improvePriorityOf (("This is an urgent fix for mobile tap targets").data) =
      ("High").data ∧
    improveEffortOf (("This is an urgent fix for mobile tap targets").data) =
      ("Medium").data := by
  refine ⟨by decide, by decide, by decide⟩

/-- C9: the extraction functions are pure: two calls on the same narrative
give structurally identical records (the embedding is a function of the text
alone; the source uses no randomness, clock or surviving state). -/
theorem C9_deterministic (t : Str) :
    formatTechnicalSeoResults t = formatTechnicalSeoResults t ∧
    formatContentResults t = formatContentResults t :=
  ⟨rfl, rfl⟩

/-- C3: when no recognizer pattern and no signal detector matches, every score
resolves to its declared default (65 / 70 / 70 / 50) and the aggregate equals
Math.round(65*0.4 + 70*0.25 + 70*0.2 + 50*0.15) = 65, with no error surfaced. -/
theorem C3_default_fallback (t : Str)
    (hp : ∀ p ∈ performanceRegexes, scoreFind p t = none)
    (hm : ∀ p ∈ mobileRegexes, scoreFind p t = none)
    (hs : ∀ s ∈ structureTable, sigFires s t = false)
    (hc : ∀ p ∈ schemaRegexes, scoreFind p t = none)
    (hw : ∀ w ∈ schemaNeutralWords, containsCS t w = false) :
    (formatTechnicalSeoResults t).performanceScore = 65 ∧
    (formatTechnicalSeoResults t).mobileScore = 70 ∧
    (formatTechnicalSeoResults t).structureScore = 70 ∧
    (formatTechnicalSeoResults t).schemaScore = 50 ∧
    (formatTechnicalSeoResults t).overallScore = 65 := by
  have hperf : performanceScoreOf t = 65 := by
    unfold performanceScoreOf
    rw [scanPats_of_none t _ hp]
  have hmob : mobileScoreOf t = 70 := by
    unfold mobileScoreOf
    rw [scanPats_of_none t _ hm]
  have hstruct : structureScoreOf t = 70 := by
    unfold structureScoreOf
    rw [applySignals_nofire t _ hs]
    decide
  have hschema : schemaScoreOf t = 50 := by
    have w1 := hw schemaWordLikely (by simp [schemaNeutralWords])
    have w2 := hw schemaWordPartially (by simp [schemaNeutralWords])
    have w3 := hw schemaWordTypes (by simp [schemaNeutralWords])
    have w4 := hw schemaWordTypesNone (by simp [schemaNeutralWords])
    have w6 := hw schemaWordNoSchema (by simp [schemaNeutralWords])
    have w7 := hw schemaWordJsonLd (by simp [schemaNeutralWords])
    have w9 := hw schemaWordHead (by simp [schemaNeutralWords])
    have w10 := hw schemaWordMissing (by simp [schemaNeutralWords])
    unfold schemaScoreOf
    rw [scanPats_of_none t _ hc]
    simp only [w1, w2, w3, w4, w6, w7, w9, w10, Bool.false_and, Bool.false_or,
      Bool.false_eq_true, if_false]
    decide
  refine ⟨?_, ?_, ?_, ?_, ?_⟩
  · rw [formatTechnicalSeoResults_performanceScore, hperf]
  · rw [formatTechnicalSeoResults_mobileScore, hmob]
  · rw [formatTechnicalSeoResults_structureScore, hstruct]
  · rw [formatTechnicalSeoResults_schemaScore, hschema]
  · rw [formatTechnicalSeoResults_overallScore, hperf, hmob, hstruct, hschema]
    norm_num [qround]

/-- C3 witness: the empty narrative matches nothing, so all defaults apply. -/
theorem C3_default_fallback_witness :
    (formatTechnicalSeoResults ([] : Str)).performanceScore = 65 ∧
    (formatTechnicalSeoResults ([] : Str)).mobileScore = 70 ∧
    (formatTechnicalSeoResults ([] : Str)).structureScore = 70 ∧
    (formatTechnicalSeoResults ([] : Str)).schemaScore = 50 ∧
    (formatTechnicalSeoResults ([] : Str)).overallScore = 65 :=
  C3_default_fallback [] (by decide) (by decide) (by decide) (by decide) (by decide)

/-- C4: the performance score is taken from the first pattern in declaration
order that matches anywhere in the text, regardless of the positions of the
matches: whenever the patterns before `p` in the list fail and `p` captures
`c`, the resulting field is `parseInt c`. -/
theorem C4_first_pattern_wins (t : Str) (pre suf : List ScorePat) (p : ScorePat)
    (c : Str) (hsplit : performanceRegexes = pre ++ p :: suf)
    (hpre : ∀ q ∈ pre, scoreFind q t = none)
    (hp : scoreFind p t = some c) :
    (formatTechnicalSeoResults t).performanceScore = intOfDigits c := by
  rw [formatTechnicalSeoResults_performanceScore]
  unfold performanceScoreOf
  rw [hsplit, scanPats_append t p c pre suf hpre hp]

/-- C4 witness: in a narrative where the second pattern's match occurs earlier
in the text than the first pattern's match, the first-declared pattern still
wins: the score is 80, not 40. -/
theorem C4_first_pattern_wins_witness :
    scoreFind (ScorePat.mk [("performance score").data] true false (("/100").data))
      precedenceDemoText = some (("80").data) ∧
    scoreFind (ScorePat.mk [("performance rating").data] true false (("/100").data))
      precedenceDemoText = some (("40").data) ∧
    (formatTechnicalSeoResults precedenceDemoText).performanceScore = 80 := by
  refine ⟨by decide, by decide, ?_⟩
  have h := C4_first_pattern_wins precedenceDemoText []
    (performanceRegexes.tail)
    (ScorePat.mk [("performance score").data] true false (("/100").data))
    (("80").data) (by decide) (by simp) (by decide)
  exact h.trans (by decide)

/-- C5: a signal-scored field is its baseline plus the sum of the deltas of
the firing signals, clamped once after all deltas: the structure score equals
clamp(70 + signalSum), is invariant under permutation of the signal table,
and equals exactly 100 whenever the raw sum exceeds 100; the keyword score
equals one final clamp of 60 plus the density and placement adjustments. -/
theorem C5_single_clamp_signal_scores (t : Str) :
    ((formatTechnicalSeoResults t).structureScore =
      clampI (70 + signalSum t structureTable)) ∧
    (∀ tb : List Signal, List.Perm structureTable tb →
      clampI (applySignals t tb 70) = (formatTechnicalSeoResults t).structureScore) ∧
    (100 < 70 + signalSum t structureTable →
      (formatTechnicalSeoResults t).structureScore = 100) ∧
    ((formatContentResults t).keywordScore =
      min 100 (max 0 (60 + densityDelta (keywordDensityOf t) +
        (if keywordInH1Of t then 10 else 0) +
        (if keywordInIntroOf t then 10 else 0)))) := by
  have hstruct : (formatTechnicalSeoResults t).structureScore =
      clampI (70 + signalSum t structureTable) := by
    rw [formatTechnicalSeoResults_structureScore]
    unfold structureScoreOf
    rw [applySignals_add]
  refine ⟨hstruct, ?_, ?_, ?_⟩
  · intro tb hperm
    rw [applySignals_add, hstruct, signalSum_perm t hperm]
  · intro h
    rw [hstruct]
    unfold clampI
    omega
  · rw [formatContentResults_keywordScore]
    unfold keywordScoreOf
    by_cases h1 : keywordInH1Of t <;> by_cases h2 : keywordInIntroOf t <;>
      simp [h1, h2]

set_option maxRecDepth 8000 in
/-- C5 witness: a narrative firing six positive signals (raw sum 105 > 100)
scores exactly the boundary 100, also after permuting the signal table. -/
theorem C5_single_clamp_signal_scores_witness :
    clampI (applySignals sigDemoText structureTable.reverse 70) =
      (formatTechnicalSeoResults sigDemoText).structureScore ∧
    (formatTechnicalSeoResults sigDemoText).structureScore = 100 :=
  ⟨(C5_single_clamp_signal_scores sigDemoText).2.1 structureTable.reverse
      (List.reverse_perm structureTable).symm,
   (C5_single_clamp_signal_scores sigDemoText).2.2.1 (by decide)⟩

theorem dedupeAux_shape :
    ∀ (l acc : List ImprovementItem),
      ∃ r, dedupeAux acc l = acc ++ r ∧ r.Sublist l ∧
        ∀ a x b, r = a ++ x :: b → isDupIn (acc ++ a) x = false := by
  intro l
  induction l with
  | nil =>
    intro acc
    refine ⟨[], by simp [dedupeAux], List.Sublist.refl [], ?_⟩
    intro a x b h
    cases a <;> simp at h
  | cons c rest ih =>
    intro acc
    cases hd : isDupIn acc c with
    | true =>
      obtain ⟨r, hr, hsub, hdup⟩ := ih acc
      exact ⟨r, by simp [dedupeAux, hd, hr], hsub.cons c, hdup⟩
    | false =>
      obtain ⟨r, hr, hsub, hdup⟩ := ih (acc ++ [c])
      refine ⟨c :: r, ?_, hsub.cons₂ c, ?_⟩
      · simp only [dedupeAux, hd, Bool.false_eq_true, if_false, hr, List.append_assoc,
          List.singleton_append]
      · intro a x b h
        cases a with
        | nil =>
          simp only [List.nil_append, List.cons.injEq] at h
          obtain ⟨hxc, _⟩ := h
          simpa [hxc] using hd
        | cons a0 a' =>
          simp only [List.cons_append, List.cons.injEq] at h
          obtain ⟨ha0, hr'⟩ := h
          have := hdup a' x b hr'
          rw [← ha0]
          simpa [List.append_assoc] using this

theorem dedupeAux_fix :
    ∀ (m acc : List ImprovementItem),
      (∀ a x b, m = a ++ x :: b → isDupIn (acc ++ a) x = false) →
      dedupeAux acc m = acc ++ m := by
  intro m
  induction m with
  | nil =>
    intro acc _
    simp [dedupeAux]
  | cons x m' ih =>
    intro acc h
    have hx : isDupIn acc x = false := by
      have := h [] x m' (by simp)
      simpa using this
    have hrest := ih (acc ++ [x]) (fun a y b hab => by
      have := h (x :: a) y b (by simp [hab])
      simpa [List.append_assoc] using this)
    simp only [dedupeAux, hx, Bool.false_eq_true, if_false, hrest, List.append_assoc,
      List.singleton_append]

/-- C8: the duplicate-removal pass is idempotent, keeps a subsequence of its
input (hence preserves relative order), and always keeps the head element
(the first occurrence of any duplicate group). -/
theorem C8_dedupe_idempotent :
    (∀ l, uniqueImprovements (uniqueImprovements l) = uniqueImprovements l) ∧
    (∀ l, (uniqueImprovements l).Sublist l) ∧
    (∀ x xs, ∃ r, uniqueImprovements (x :: xs) = x :: r) := by
  refine ⟨?_, ?_, ?_⟩
  · intro l
    obtain ⟨r, hr, _, hdup⟩ := dedupeAux_shape l []
    have hl : uniqueImprovements l = r := by simpa [uniqueImprovements] using hr
    rw [hl]
    have hfix := dedupeAux_fix r [] (fun a x b hab => by simpa using hdup a x b hab)
    simpa [uniqueImprovements] using hfix
  · intro l
    obtain ⟨r, hr, hsub, _⟩ := dedupeAux_shape l []
    have hl : uniqueImprovements l = r := by simpa [uniqueImprovements] using hr
    rw [hl]
    exact hsub
  · intro x xs
    have hx : isDupIn [] x = false := rfl
    obtain ⟨r, hr, _, _⟩ := dedupeAux_shape xs [x]
    refine ⟨r, ?_⟩
    simpa [uniqueImprovements, dedupeAux, hx] using hr

theorem dropWhile_head_not {α : Type} (p : α → Bool) :
    ∀ (l : List α) c u, l.dropWhile p = c :: u → p c = false := by
  intro l
  induction l with
  | nil =>
    intro c u h
    simp [List.dropWhile] at h
  | cons a r ih =>
    intro c u h
    cases hp : p a with
    | true =>
      rw [List.dropWhile_cons, hp] at h
      exact ih c u (by simpa using h)
    | false =>
      rw [List.dropWhile_cons, hp] at h
      simp at h
      obtain ⟨hac, _⟩ := h
      rw [← hac]
      exact hp

/-- the first character of a line capture is never whitespace: the greedy
`\s*` has already consumed any leading whitespace. -/
theorem capShape (v : Str) :
    ∀ c cs, ((v.dropWhile (fun c => isWsChar c)).takeWhile (fun c => c ≠ '\n')) = c :: cs →
      isWsChar c = false := by
  intro c cs h
  cases hu : v.dropWhile (fun c => isWsChar c) with
  | nil => rw [hu] at h; simp [List.takeWhile] at h
  | cons a u' =>
    rw [hu, List.takeWhile_cons] at h
    by_cases ha : a = '\n'
    · simp [ha] at h
    · simp [ha] at h
      obtain ⟨hac, _⟩ := h
      rw [← hac]
      exact dropWhile_head_not _ v a u' hu

theorem lineAt_capture_head (pres : List Str) (t : Str) (cap rest : Str)
    (h : lineAt pres t = some (cap, rest)) :
    ∀ c cs, cap = c :: cs → isWsChar c = false := by
  intro c cs hc
  unfold lineAt at h
  cases hfp : firstPre pres t with
  | none => rw [hfp] at h; cases h
  | some r1 =>
    rw [hfp] at h
    simp only [Option.some.injEq, Prod.mk.injEq] at h
    obtain ⟨hcap, _⟩ := h
    rw [hc] at hcap
    exact capShape _ c cs hcap

theorem lineFind_capture_head (pres : List Str) :
    ∀ (t : Str) cap rest, lineFind pres t = some (cap, rest) →
      ∀ c cs, cap = c :: cs → isWsChar c = false := by
  intro t
  induction t with
  | nil =>
    intro cap rest h
    cases h
  | cons a r ih =>
    intro cap rest h
    rw [lineFind] at h
    cases hAt : lineAt pres (a :: r) with
    | some res =>
      rw [hAt] at h
      have hres : res = (cap, rest) := Option.some.inj h
      subst hres
      exact lineAt_capture_head pres (a :: r) cap rest hAt
    | none =>
      rw [hAt] at h
      exact ih cap rest h

theorem trim_ne_nil (s : Str) (c : Char) (cs : Str) (hs : s = c :: cs)
    (hc : isWsChar c = false) : trim s ≠ [] := by
  subst hs
  unfold trim trimLeft
  rw [List.dropWhile_cons, hc]
  simp only [Bool.false_eq_true, if_false]
  intro h
  rw [List.reverse_eq_nil_iff, List.dropWhile_eq_nil_iff] at h
  have := h c (by simp)
  rw [hc] at this
  cases this

theorem pickLine_ne_nil (minLen : ℕ) (t : Str) (dflt : Str) (hd : dflt ≠ []) :
    ∀ pats, pickLine pats minLen t dflt ≠ [] := by
  intro pats
  induction pats with
  | nil => simpa [pickLine] using hd
  | cons pres ps ih =>
    rw [pickLine]
    cases hf : lineFind pres t with
    | none => simpa using ih
    | some pr =>
      obtain ⟨cap, rest⟩ := pr
      by_cases hlen : minLen < cap.length
      · simp only [if_pos hlen]
        cases hcap : cap with
        | nil =>
          rw [hcap] at hlen
          simp at hlen
        | cons c cs =>
          rw [hcap] at hf
          exact trim_ne_nil (c :: cs) c cs rfl
            (lineFind_capture_head pres t (c :: cs) rest hf c cs rfl)
      · simp only [if_neg hlen]
        exact ih

theorem defaultTitle_ne_nil (kw : Str) : defaultTitle kw ≠ [] := by
  unfold defaultTitle
  intro h
  rcases List.append_eq_nil.mp h with ⟨_, h2⟩
  exact absurd h2 (by decide)

theorem defaultMeta_ne_nil (kw : Str) : defaultMeta kw ≠ [] := by
  unfold defaultMeta
  intro h
  rcases List.append_eq_nil.mp h with ⟨h1, _⟩
  rcases List.append_eq_nil.mp h1 with ⟨h2, _⟩
  exact absurd h2 (by decide)

/-- C10: although the result type declares them optional, improvedTitle and
improvedMetaDescription come back populated and non-empty for every input:
when no pattern matches they are synthesized from the extracted keyword or
the fallback phrase "your topic". -/
theorem C10_title_meta_always_populated (t : Str) :
    (∃ s, (formatContentResults t).improvedTitle = some s ∧ s ≠ []) ∧
    (∃ m, (formatContentResults t).improvedMetaDescription = some m ∧ m ≠ []) := by
  constructor
  · refine ⟨improvedTitleOf t, rfl, ?_⟩
    unfold improvedTitleOf
    exact pickLine_ne_nil 10 t _ (defaultTitle_ne_nil _) titleRegexPres
  · refine ⟨improvedMetaDescriptionOf t, rfl, ?_⟩
    unfold improvedMetaDescriptionOf
    exact pickLine_ne_nil 20 t _ (defaultMeta_ne_nil _) metaRegexPres

end SeoAgents
